import Mathlib

/-
Verification of the organize-media repository (a Node.js utility that sorts
photo and video files into a date- and hash-derived directory layout).

The development shallowly embeds the date-resolution helper
(src/helpers/exif.ts), the formatting helpers (src/helpers/date.ts), the
classification helpers (src/helpers/media.ts) and, where the engine file
itself (src/index.ts, runOrganizeMedia) is absent from the repository
snapshot, models the pairing/identity/placement engine from the design
document, keeping the source helpers as the authoritative building blocks.

JavaScript Date values are embedded as records of the component getters the
source reads (getFullYear, getMonth, getDate, getHours, getMinutes,
getSeconds); the host date-string parser (the ECMAScript Date constructor)
is treated as a parameter wherever the source delegates to it, so every
statement proved over a parametric parser holds for the real host parser.
-/

/-- Embedding of a JavaScript Date value by the component getters the source
reads: year is getFullYear, monthIndex is getMonth (0-based, as in
JavaScript), day is getDate, and hours, minutes, seconds likewise. -/
structure JSDate where
  year : Int
  monthIndex : Nat
  day : Nat
  hours : Nat
  minutes : Nat
  seconds : Nat
deriving DecidableEq, Repr

/-- A host date-string parser: what the JavaScript expression
new Date(string) does, with none standing for an Invalid Date (NaN time
value). Kept abstract as a parameter in the theorems about resolveDate. -/
def HostParse : Type := String → Option JSDate

/-- Converts an ASCII digit character to its numeric value. -/
def digitVal (c : Char) : Nat := c.toNat - 48

/-- Models the fragment of the ECMAScript date-string grammar exercised
here: a Date Time String Format date "YYYY-MM-DD", optionally followed by a
time "HH:MM:SS" separated by the mandated separator T or by the blank that
the Node runtime additionally accepts. Out-of-range components yield an
Invalid Date (none). Used as one concrete instantiation of the host parser;
theorems over an arbitrary parser do not depend on it. -/
def nodeDateParse (s : String) : Option JSDate :=
  match s.data with
  | [y1, y2, y3, y4, '-', m1, m2, '-', d1, d2] =>
    if ([y1, y2, y3, y4, m1, m2, d1, d2].all Char.isDigit) then
      let mo := digitVal m1 * 10 + digitVal m2
      let dy := digitVal d1 * 10 + digitVal d2
      if 1 ≤ mo ∧ mo ≤ 12 ∧ 1 ≤ dy ∧ dy ≤ 31 then
        some ⟨Int.ofNat (digitVal y1 * 1000 + digitVal y2 * 100 + digitVal y3 * 10 + digitVal y4),
              mo - 1, dy, 0, 0, 0⟩
      else none
    else none
  | [y1, y2, y3, y4, '-', m1, m2, '-', d1, d2, sep, h1, h2, ':', n1, n2, ':', s1, s2] =>
    if (sep = 'T' ∨ sep = ' ')
        ∧ ([y1, y2, y3, y4, m1, m2, d1, d2, h1, h2, n1, n2, s1, s2].all Char.isDigit) then
      let mo := digitVal m1 * 10 + digitVal m2
      let dy := digitVal d1 * 10 + digitVal d2
      let hh := digitVal h1 * 10 + digitVal h2
      let mi := digitVal n1 * 10 + digitVal n2
      let ss := digitVal s1 * 10 + digitVal s2
      if 1 ≤ mo ∧ mo ≤ 12 ∧ 1 ≤ dy ∧ dy ≤ 31 ∧ hh ≤ 23 ∧ mi ≤ 59 ∧ ss ≤ 59 then
        some ⟨Int.ofNat (digitVal y1 * 1000 + digitVal y2 * 100 + digitVal y3 * 10 + digitVal y4),
              mo - 1, dy, hh, mi, ss⟩
      else none
    else none
  | _ => none

/-- From src/helpers/exif.ts, the replace call in parseExifDate:
raw.replace of a leading anchored pattern of four digits, a colon, two
digits, a colon, two digits, rewriting the two colons to dashes and leaving
every other input unchanged. -/
def fixExifSeparators (s : String) : String :=
  match s.data with
  | y1 :: y2 :: y3 :: y4 :: c1 :: m1 :: m2 :: c2 :: d1 :: d2 :: rest =>
    if c1 = ':' ∧ c2 = ':' ∧ ([y1, y2, y3, y4, m1, m2, d1, d2].all Char.isDigit) then
      String.mk (y1 :: y2 :: y3 :: y4 :: '-' :: m1 :: m2 :: '-' :: d1 :: d2 :: rest)
    else s
  | _ => s

/-- From src/helpers/exif.ts, parseExifDate: a missing value and the empty
string (both falsy in the source guard) yield null; otherwise the separator
fix is applied and the result handed to the host Date parser, with an
invalid parse yielding null. -/
def parseExifDate (hp : HostParse) (raw : Option String) : Option JSDate :=
  match raw with
  | none => none
  | some s => if s = "" then none else hp (fixExifSeparators s)

/-- The JavaScript or-operator specialised to Date-or-null operands as used
in resolveDate: a Date object is always truthy, null is falsy, so the
operator keeps the first non-null operand. -/
def jsOr (a b : Option JSDate) : Option JSDate :=
  match a with
  | some d => some d
  | none => b

/-- From src/helpers/exif.ts, the ExifRow interface: the source path, the
six high-confidence timestamp fields, the six medium-confidence timestamp
fields and the grouping token, all timestamp fields optional strings. -/
structure ExifRow where
  SourceFile : String
  DateTimeOriginal : Option String := none
  SubSecDateTimeOriginal : Option String := none
  CreateDate : Option String := none
  SubSecCreateDate : Option String := none
  MediaCreateDate : Option String := none
  DateTimeCreated : Option String := none
  MetadataDate : Option String := none
  TrackCreateDate : Option String := none
  CreationDate : Option String := none
  ModifyDate : Option String := none
  MediaModifyDate : Option String := none
  TrackModifyDate : Option String := none
  ContentIdentifier : Option String := none
deriving DecidableEq, Repr

/-- Result shape of resolveDate in src/helpers/exif.ts: the resolved date
(or null) and the approximate flag. -/
structure ResolveResult where
  date : Option JSDate
  approx : Bool
deriving DecidableEq, Repr

/-- From src/helpers/exif.ts, the or-chain over the six high-confidence
fields assigned to the local constant named exact in resolveDate, in source
order. -/
def highDate (hp : HostParse) (row : ExifRow) : Option JSDate :=
  jsOr (jsOr (jsOr (jsOr (jsOr
    (parseExifDate hp row.DateTimeOriginal)
    (parseExifDate hp row.SubSecDateTimeOriginal))
    (parseExifDate hp row.CreateDate))
    (parseExifDate hp row.SubSecCreateDate))
    (parseExifDate hp row.MediaCreateDate))
    (parseExifDate hp row.DateTimeCreated)

/-- From src/helpers/exif.ts, the or-chain over the six medium-confidence
fields assigned to the local constant named medium in resolveDate, in
source order. -/
def mediumDate (hp : HostParse) (row : ExifRow) : Option JSDate :=
  jsOr (jsOr (jsOr (jsOr (jsOr
    (parseExifDate hp row.TrackCreateDate)
    (parseExifDate hp row.CreationDate))
    (parseExifDate hp row.MetadataDate))
    (parseExifDate hp row.ModifyDate))
    (parseExifDate hp row.MediaModifyDate))
    (parseExifDate hp row.TrackModifyDate)

/-- From src/helpers/exif.ts, resolveDate: return the first high-confidence
date with approx false; otherwise, when recoverDate is off, null; otherwise
the first medium-confidence date with approx true; otherwise null. -/
def resolveDate (hp : HostParse) (row : ExifRow) (recoverDate : Bool) : ResolveResult :=
  match highDate hp row with
  | some d => ⟨some d, false⟩
  | none =>
    if !recoverDate then ⟨none, false⟩
    else
      match mediumDate hp row with
      | some d => ⟨some d, true⟩
      | none => ⟨none, false⟩

/-- The high-confidence fields of a record in the fixed precedence order
stated by the design document. -/
def highFields (row : ExifRow) : List (Option String) :=
  [row.DateTimeOriginal, row.SubSecDateTimeOriginal, row.CreateDate,
   row.SubSecCreateDate, row.MediaCreateDate, row.DateTimeCreated]

/-- The medium-confidence fields of a record in the fixed precedence order
stated by the design document. -/
def mediumFields (row : ExifRow) : List (Option String) :=
  [row.TrackCreateDate, row.CreationDate, row.MetadataDate,
   row.ModifyDate, row.MediaModifyDate, row.TrackModifyDate]

/-- The parsed value of the first high-confidence field, in precedence
order, that parses to a valid date. -/
def firstValidHigh (hp : HostParse) (row : ExifRow) : Option JSDate :=
  List.findSome? (parseExifDate hp) (highFields row)

/-- The parsed value of the first medium-confidence field, in precedence
order, that parses to a valid date. -/
def firstValidMedium (hp : HostParse) (row : ExifRow) : Option JSDate :=
  List.findSome? (parseExifDate hp) (mediumFields row)

/-- Two records whose twelve timestamp fields parse identically under the
given host parser; an unparsable-but-present field parses exactly like an
absent one, so such rows are related in particular. -/
def FieldwiseParseEq (hp : HostParse) (row row' : ExifRow) : Prop :=
  parseExifDate hp row.DateTimeOriginal = parseExifDate hp row'.DateTimeOriginal
  ∧ parseExifDate hp row.SubSecDateTimeOriginal = parseExifDate hp row'.SubSecDateTimeOriginal
  ∧ parseExifDate hp row.CreateDate = parseExifDate hp row'.CreateDate
  ∧ parseExifDate hp row.SubSecCreateDate = parseExifDate hp row'.SubSecCreateDate
  ∧ parseExifDate hp row.MediaCreateDate = parseExifDate hp row'.MediaCreateDate
  ∧ parseExifDate hp row.DateTimeCreated = parseExifDate hp row'.DateTimeCreated
  ∧ parseExifDate hp row.TrackCreateDate = parseExifDate hp row'.TrackCreateDate
  ∧ parseExifDate hp row.CreationDate = parseExifDate hp row'.CreationDate
  ∧ parseExifDate hp row.MetadataDate = parseExifDate hp row'.MetadataDate
  ∧ parseExifDate hp row.ModifyDate = parseExifDate hp row'.ModifyDate
  ∧ parseExifDate hp row.MediaModifyDate = parseExifDate hp row'.MediaModifyDate
  ∧ parseExifDate hp row.TrackModifyDate = parseExifDate hp row'.TrackModifyDate

instance (hp : HostParse) (row row' : ExifRow) :
    Decidable (FieldwiseParseEq hp row row') := by
  unfold FieldwiseParseEq; infer_instance

/-- A record none of whose twelve timestamp fields parses to a valid date
under the given host parser: every field is absent, empty, or present but
unparsable. -/
def AllUnparsable (hp : HostParse) (row : ExifRow) : Prop :=
  ∀ f ∈ highFields row ++ mediumFields row, parseExifDate hp f = none

instance (hp : HostParse) (row : ExifRow) : Decidable (AllUnparsable hp row) := by
  unfold AllUnparsable; infer_instance

/-- Models Node path.join for the plain, separator-free segments this
program produces: segments joined with the POSIX separator. -/
def joinPath : List String → String
  | [] => ""
  | [x] => x
  | x :: xs => x ++ "/" ++ joinPath xs

/-- The basename portion of a path: everything after the last POSIX
separator. -/
def baseNamePart (p : String) : String :=
  String.mk ((p.data.reverse.takeWhile (fun c => c ≠ '/')).reverse)

/-- Models Node path.extname: the suffix of the basename from its last dot,
empty when the basename has no dot or only a leading dot. -/
def extname (p : String) : String :=
  let revBase := (baseNamePart p).data.reverse
  let revExt := revBase.takeWhile (fun c => c ≠ '.')
  if revExt.length = revBase.length then ""
  else if revExt.length + 1 = revBase.length then ""
  else String.mk ('.' :: revExt.reverse)

/-- Models String.prototype.toLowerCase as used on extensions: lower-case
every character (the extensions involved are ASCII). -/
def strToLower (s : String) : String :=
  String.mk (s.data.map Char.toLower)

/-- Models String.prototype.padStart(2, "0") from src/helpers/date.ts:
prepend zeros until the length reaches two. -/
def padStart2 (s : String) : String :=
  String.mk (List.replicate (2 - s.length) '0') ++ s

/-- From src/helpers/date.ts, the record produced by getDateParts. -/
structure DateParts where
  y : Int
  m : String
  d : String
  hh : String
  mm : String
  ss : String
deriving DecidableEq, Repr

/-- From src/helpers/date.ts, getDateParts: the year as a number and the
month (getMonth plus one), day, hours, minutes and seconds stringified and
padded to two characters. -/
def getDateParts (date : JSDate) : DateParts :=
  { y := date.year
    m := padStart2 (toString (date.monthIndex + 1))
    d := padStart2 (toString date.day)
    hh := padStart2 (toString date.hours)
    mm := padStart2 (toString date.minutes)
    ss := padStart2 (toString date.seconds) }

/-- From src/helpers/date.ts, formatBaseName: the template literal
interpolating the date parts, the hash, and the approx suffix. -/
def formatBaseName (date : JSDate) (hash : String) (approx : Bool) : String :=
  let p := getDateParts date
  toString p.y ++ "." ++ p.m ++ "." ++ p.d ++ "_" ++ p.hh ++ "." ++ p.mm ++ "." ++ p.ss
    ++ "-" ++ hash ++ (if approx then "-approx" else "")

/-- From src/helpers/date.ts, formatDateDir: path.join of the target
directory, the stringified year, and the padded month and day. -/
def formatDateDir (targetDir : String) (date : JSDate) : String :=
  let p := getDateParts date
  joinPath [targetDir, toString p.y, p.m, p.d]

/-- From src/helpers/media.ts, the closed extension set MEDIA_EXT. -/
def MEDIA_EXT : List String :=
  [".jpg", ".jpeg", ".png", ".heic", ".mov", ".mp4", ".avi", ".mkv", ".webp", ".dng"]

/-- From src/helpers/media.ts, isMediaFile: membership of the lower-cased
extension of the file in MEDIA_EXT. -/
def isMediaFile (file : String) : Bool :=
  MEDIA_EXT.contains (strToLower (extname file))

/-- From src/helpers/media.ts, isPhoto: membership of the given extension
in the closed list of image extensions. -/
def isPhoto (ext : String) : Bool :=
  [".heic", ".jpg", ".jpeg", ".png"].contains ext

/-- The photo classification the engine applies to a record: isPhoto on the
lower-cased extension of the source path, matching the callers of isPhoto
in the source, which always lower-case path.extname first. -/
def classifyPhoto (p : String) : Bool :=
  isPhoto (strToLower (extname p))

/-- Modelled from the spec: the IdentityKey fallback name key of a record
whose engine (src/index.ts, runOrganizeMedia) is absent from the snapshot:
lower-cased directory plus lower-cased filename without extension, here the
lower-cased path with its extension removed. -/
def nameKey (p : String) : String :=
  strToLower (String.mk (p.data.take (p.data.length - (extname p).data.length)))

/-- Modelled from the spec: a record as seen by the missing engine after
date resolution: source path, optional grouping token, and the record's own
resolved date with its approximate flag. -/
structure MediaRecord where
  sourcePath : String
  token : Option String
  date : Option JSDate
  approx : Bool
deriving DecidableEq, Repr

/-- Modelled from the spec: a BestCandidate entry of either PairIndex map:
a date and its approximate flag. -/
structure BestCand where
  date : JSDate
  approx : Bool
deriving DecidableEq, Repr

/-- Modelled from the spec: a BestCandidate entry of the name-key index,
which additionally records the designated photo source path. -/
structure NameCand where
  date : JSDate
  approx : Bool
  photoPath : String
deriving DecidableEq, Repr

/-- Functional update of a string-keyed lookup map. -/
def updateFn {α : Type} (f : String → Option α) (k : String) (v : α) :
    String → Option α :=
  fun x => if x = k then some v else f x

/-- Modelled from the spec: the two lookup structures of PairIndex, plus
the cache of identity hashes derived from grouping tokens. -/
structure PairIndex where
  tokenHash : String → Option String
  tokenBest : String → Option BestCand
  nameBest : String → Option NameCand

/-- The empty PairIndex. -/
def emptyIndex : PairIndex :=
  { tokenHash := fun _ => none, tokenBest := fun _ => none, nameBest := fun _ => none }

/-- Modelled from the spec: the BestCandidate replacement rule: an existing
candidate is replaced only by a strictly more confident date (exact over
approximate); among equally confident candidates the first encountered
wins. -/
def replaceCand (cur : Option BestCand) (incoming : BestCand) : BestCand :=
  match cur with
  | none => incoming
  | some c => if !incoming.approx ∧ c.approx then incoming else c

/-- The same replacement rule for the name-key index, carrying the
designated photo path of whichever candidate wins. -/
def replaceNameCand (cur : Option NameCand) (incoming : NameCand) : NameCand :=
  match cur with
  | none => incoming
  | some c => if !incoming.approx ∧ c.approx then incoming else c

/-- Modelled from the spec: the token-hash caching of one PairIndex build
step, with hashToken standing for md5String from src/helpers/hash.ts: the
first time a token is seen, the identity hash derived from the token text
is cached. -/
def stepTokenHash (hashToken : String → String) (idx : PairIndex) (r : MediaRecord) :
    PairIndex :=
  match r.token with
  | some t =>
    if (idx.tokenHash t).isSome then idx
    else { idx with tokenHash := updateFn idx.tokenHash t (hashToken t) }
  | none => idx

/-- Modelled from the spec: the token-index best-candidate update of one
build step: only a record with a token, a date and a photo-classified
extension competes. -/
def stepTokenBest (idx : PairIndex) (r : MediaRecord) : PairIndex :=
  match r.token, r.date with
  | some t, some d =>
    if classifyPhoto r.sourcePath then
      { idx with tokenBest :=
          updateFn idx.tokenBest t (replaceCand (idx.tokenBest t) ⟨d, r.approx⟩) }
    else idx
  | _, _ => idx

/-- Modelled from the spec: the name-key-index best-candidate update of
one build step: every record with a date and a photo-classified extension
competes, regardless of token, recording its own path as designated photo
when it wins. -/
def stepNameBest (idx : PairIndex) (r : MediaRecord) : PairIndex :=
  match r.date with
  | some d =>
    if classifyPhoto r.sourcePath then
      let k := nameKey r.sourcePath
      let v := replaceNameCand (idx.nameBest k) ⟨d, r.approx, r.sourcePath⟩
      { idx with nameBest := updateFn idx.nameBest k v }
    else idx
  | none => idx

/-- Modelled from the spec: one step of the single-pass PairIndex build:
the token-hash cache, the token index and the name-key index updates in
order. -/
def stepIndex (hashToken : String → String) (idx : PairIndex) (r : MediaRecord) :
    PairIndex :=
  stepNameBest (stepTokenBest (stepTokenHash hashToken idx r) r) r

/-- Modelled from the spec: the PairIndex built in one pass over the batch
in stable input order, strictly before any record is finalised. -/
def buildIndex (hashToken : String → String) (records : List MediaRecord) : PairIndex :=
  records.foldl (stepIndex hashToken) emptyIndex

/-- Modelled from the spec: the FinalRecord consumed by the placement
planner. -/
structure FinalRecord where
  sourcePath : String
  ext : String
  date : Option JSDate
  approx : Bool
  identityHash : String
deriving DecidableEq, Repr

/-- State threaded through the identity-resolution pass: the lazy
compute-once cache of name-key group content hashes, and the list of paths
whose file content has been hashed so far (the model's account of content
hashing I/O). -/
structure ResolveState where
  groupHash : String → Option String
  hashedPaths : List String

/-- The initial resolution state: empty cache, nothing hashed. -/
def initResolveState : ResolveState :=
  { groupHash := fun _ => none, hashedPaths := [] }

/-- Modelled from the spec: the date-adoption steps of IdentityResolver:
start from the record's own date and flag; when absent, adopt the token
index best candidate; when still absent, adopt the name-key best
candidate. -/
def adoptDate (idx : PairIndex) (r : MediaRecord) : Option JSDate × Bool :=
  match r.date with
  | some d => (some d, r.approx)
  | none =>
    match (match r.token with | some t => idx.tokenBest t | none => none) with
    | some b => (some b.date, b.approx)
    | none =>
      match idx.nameBest (nameKey r.sourcePath) with
      | some nb => (some nb.date, nb.approx)
      | none => (none, r.approx)

/-- Modelled from the spec: the identity-hash step of IdentityResolver,
with hashToken standing for md5String and hashFile for md5 (content
hashing) from src/helpers/hash.ts. A record with a token uses the cached
token hash at no file I/O; otherwise, a record whose name key has a group
uses that group's designated-photo content hash, computed lazily once and
cached; otherwise the record's own content is hashed. Every content-hash
operation is recorded in hashedPaths. -/
def hashStep (hashToken hashFile : String → String) (idx : PairIndex)
    (st : ResolveState) (r : MediaRecord) : String × ResolveState :=
  match r.token with
  | some t => ((idx.tokenHash t).getD (hashToken t), st)
  | none =>
    let k := nameKey r.sourcePath
    match idx.nameBest k with
    | some nb =>
      match st.groupHash k with
      | some h => (h, st)
      | none =>
        let h := hashFile nb.photoPath
        (h, { groupHash := updateFn st.groupHash k h,
              hashedPaths := nb.photoPath :: st.hashedPaths })
    | none =>
      (hashFile r.sourcePath,
       { st with hashedPaths := r.sourcePath :: st.hashedPaths })

/-- Modelled from the spec: IdentityResolver on one record: combine the
adopted date and the identity hash into a FinalRecord, keeping the source
path and its extension as encountered. -/
def resolveOne (hashToken hashFile : String → String) (idx : PairIndex)
    (st : ResolveState) (r : MediaRecord) : FinalRecord × ResolveState :=
  let da := adoptDate idx r
  let hs := hashStep hashToken hashFile idx st r
  (⟨r.sourcePath, extname r.sourcePath, da.1, da.2, hs.1⟩, hs.2)

/-- Modelled from the spec: IdentityResolver over the whole batch, in input
order, threading the lazy hash cache and the content-hash account. -/
def resolveAll (hashToken hashFile : String → String) (idx : PairIndex)
    (st : ResolveState) : List MediaRecord → List FinalRecord × ResolveState
  | [] => ([], st)
  | r :: rs =>
    let first := resolveOne hashToken hashFile idx st r
    let rest := resolveAll hashToken hashFile idx first.2 rs
    (first.1 :: rest.1, rest.2)

/-- Modelled from the spec: the two-phase engine over one batch: the
PairIndex is fully built first, then every record is finalised in input
order. Returns the FinalRecords and the list of paths whose content was
hashed. -/
def runEngine (hashToken hashFile : String → String) (records : List MediaRecord) :
    List FinalRecord × List String :=
  let idx := buildIndex hashToken records
  let out := resolveAll hashToken hashFile idx initResolveState records
  (out.1, out.2.hashedPaths)

/-- Modelled from the spec: NoDateReporter: the source paths of the final
records with no resolvable date, preserving input order. -/
def noDateList (finals : List FinalRecord) : List String :=
  (finals.filter (fun f => f.date = none)).map (fun f => f.sourcePath)

/-- Modelled from the spec: the serialized no-date report, one path per
line, newline-terminated, produced only when the list is non-empty. -/
def noDateReportArtifact (finals : List FinalRecord) : Option String :=
  let l := noDateList finals
  if l.isEmpty then none
  else some (String.join (l.map (fun p => p ++ "\n")))

/-- The placement action of a PlacementDecision. -/
inductive PlaceAction where
  | Copy : PlaceAction
  | SkipExisting : PlaceAction
deriving DecidableEq, Repr

/-- Modelled from the spec: a PlacementDecision: the computed target path
and whether to copy or skip. -/
structure PlacementDecision where
  targetPath : String
  action : PlaceAction
deriving DecidableEq, Repr

/-- Modelled from the spec and the source helpers: the planned target path
of a FinalRecord: with no date, the no-photo-taken-date bucket under the
target root with the identity hash alone as base name; with a date, the
formatDateDir directory and the formatBaseName base name from
src/helpers/date.ts; in both cases the extension as encountered is
appended. -/
def plannedTargetPath (targetRoot : String) (fr : FinalRecord) : String :=
  match fr.date with
  | none => joinPath [targetRoot, "no-photo-taken-date", fr.identityHash ++ fr.ext]
  | some d =>
    joinPath [formatDateDir targetRoot d, formatBaseName d fr.identityHash fr.approx ++ fr.ext]

/-- Modelled from the spec: PlacementPlanner: the planner performs no I/O
itself and consults only an existence oracle at the computed target path;
existence alone decides SkipExisting over Copy. -/
def plan (targetRoot : String) (existsAt : String → Bool) (fr : FinalRecord) :
    PlacementDecision :=
  if existsAt (plannedTargetPath targetRoot fr) then
    ⟨plannedTargetPath targetRoot fr, PlaceAction.SkipExisting⟩
  else
    ⟨plannedTargetPath targetRoot fr, PlaceAction.Copy⟩

/-- The EXIF timestamp lexical form named by the claims: four digits, a
colon, two digits, a colon, two digits, a blank, then a colon-separated
six-digit time. -/
def isExifLexicalForm (s : String) : Bool :=
  match s.data with
  | [y1, y2, y3, y4, c1, m1, m2, c2, d1, d2, sp, h1, h2, c3, n1, n2, c4, s1, s2] =>
    c1 == ':' && c2 == ':' && sp == ' ' && c3 == ':' && c4 == ':'
      && ([y1, y2, y3, y4, m1, m2, d1, d2, h1, h2, n1, n2, s1, s2].all Char.isDigit)
  | _ => false

/-- The zero-padding to two digits named by the claims. -/
def twoDigit (n : Nat) : String :=
  if n < 10 then "0" ++ toString n else toString n

/-- The target-path layout exactly as the claims state it: for a null date
the bucket directory with the identity hash alone as base name; for a
resolved date the year, two-digit month and two-digit day directories,
then the dotted timestamp, the identity hash, an approx suffix exactly
when the approximate flag is set, and the extension. -/
def specTargetPath (root : String) (fr : FinalRecord) : String :=
  match fr.date with
  | none => root ++ "/" ++ "no-photo-taken-date" ++ "/" ++ fr.identityHash ++ fr.ext
  | some d =>
    let y := toString d.year
    let m := twoDigit (d.monthIndex + 1)
    let dy := twoDigit d.day
    let hh := twoDigit d.hours
    let mi := twoDigit d.minutes
    let ss := twoDigit d.seconds
    root ++ "/" ++ y ++ "/" ++ m ++ "/" ++ dy ++ "/" ++ y ++ "." ++ m ++ "." ++ dy
      ++ "_" ++ hh ++ "." ++ mi ++ "." ++ ss ++ "-" ++ fr.identityHash
      ++ (if fr.approx then "-approx" else "") ++ fr.ext

/-- The date components a JavaScript Date getter can return, as bounds: a
month index below 12 and two-digit-bounded day, hours, minutes and
seconds, which hold of every real Date value. -/
def componentsBounded : Option JSDate → Prop
  | none => True
  | some d => d.monthIndex + 1 < 100 ∧ d.day < 100 ∧ d.hours < 100
      ∧ d.minutes < 100 ∧ d.seconds < 100

instance (o : Option JSDate) : Decidable (componentsBounded o) := by
  cases o <;> unfold componentsBounded <;> infer_instance

/-- The planned target path without its final extension: the directory and
base name the planner computes before appending the extension. -/
def plannedStem (targetRoot : String) (fr : FinalRecord) : String :=
  match fr.date with
  | none => joinPath [targetRoot, "no-photo-taken-date", fr.identityHash]
  | some d =>
    joinPath [formatDateDir targetRoot d, formatBaseName d fr.identityHash fr.approx]

/-- Every cached token hash is the hash of its own token text. -/
def TokenHashOK (hashToken : String → String) (idx : PairIndex) : Prop :=
  ∀ t v, idx.tokenHash t = some v → v = hashToken t

/-- Every name-key entry designates a photo-classified path whose name key
is the entry's own key. -/
def NameBestOK (idx : PairIndex) : Prop :=
  ∀ k nb, idx.nameBest k = some nb →
    nameKey nb.photoPath = k ∧ classifyPhoto nb.photoPath = true

/-- The resolution-pass invariant tying the lazy group-hash cache and the
content-hash account together: the account is duplicate-free, a name-key
group whose lazy cache is still empty has not had its designated photo
hashed, and a pending record with no name-key group has not had its own
path hashed. -/
def LogOK (idx : PairIndex) (st : ResolveState) (rem : List MediaRecord) : Prop :=
  st.hashedPaths.Nodup
    ∧ (∀ k nb, idx.nameBest k = some nb → st.groupHash k = none →
        nb.photoPath ∉ st.hashedPaths)
    ∧ (∀ r, r ∈ rem → idx.nameBest (nameKey r.sourcePath) = none →
        r.sourcePath ∉ st.hashedPaths)

theorem highDate_eq_firstValidHigh (hp : HostParse) (row : ExifRow) :
    highDate hp row = firstValidHigh hp row := by
  unfold highDate firstValidHigh highFields
  cases h1 : parseExifDate hp row.DateTimeOriginal <;>
    cases h2 : parseExifDate hp row.SubSecDateTimeOriginal <;>
    cases h3 : parseExifDate hp row.CreateDate <;>
    cases h4 : parseExifDate hp row.SubSecCreateDate <;>
    cases h5 : parseExifDate hp row.MediaCreateDate <;>
    cases h6 : parseExifDate hp row.DateTimeCreated <;>
    simp_all [jsOr, List.findSome?]

theorem mediumDate_eq_firstValidMedium (hp : HostParse) (row : ExifRow) :
    mediumDate hp row = firstValidMedium hp row := by
  unfold mediumDate firstValidMedium mediumFields
  cases h1 : parseExifDate hp row.TrackCreateDate <;>
    cases h2 : parseExifDate hp row.CreationDate <;>
    cases h3 : parseExifDate hp row.MetadataDate <;>
    cases h4 : parseExifDate hp row.ModifyDate <;>
    cases h5 : parseExifDate hp row.MediaModifyDate <;>
    cases h6 : parseExifDate hp row.TrackModifyDate <;>
    simp_all [jsOr, List.findSome?]

/-- C1: for every metadata record in which at least one high-confidence
timestamp field parses to a valid date, resolveDate returns approx false
and the date of the first such field in the fixed precedence order, for
both values of recoverDate, and for every host parser. -/
theorem c1_high_confidence_precedence (hp : HostParse) (row : ExifRow)
    (recoverDate : Bool) (d : JSDate) (h : firstValidHigh hp row = some d) :
    resolveDate hp row recoverDate = ⟨some d, false⟩ := by
  unfold resolveDate
  rw [highDate_eq_firstValidHigh, h]

/-- Concrete instance of C1 at a record whose DateTimeOriginal holds a
valid EXIF timestamp, evaluated with the modelled host parser. -/
theorem c1_high_confidence_precedence_witness :
    resolveDate nodeDateParse
      { SourceFile := "a.jpg", DateTimeOriginal := some "2024:01:02 03:04:05" } true
      = ⟨some ⟨2024, 0, 2, 3, 4, 5⟩, false⟩ :=
  c1_high_confidence_precedence nodeDateParse
    { SourceFile := "a.jpg", DateTimeOriginal := some "2024:01:02 03:04:05" }
    true ⟨2024, 0, 2, 3, 4, 5⟩ (by decide)

/-- C2: for every metadata record in which no high-confidence field parses
but some medium-confidence field does, resolveDate with recoverDate off
returns null and not-approximate, and with recoverDate on returns the first
valid medium-confidence field in precedence order flagged approximate. -/
theorem c2_medium_confidence_recovery (hp : HostParse) (row : ExifRow)
    (d : JSDate) (hhigh : firstValidHigh hp row = none)
    (hmed : firstValidMedium hp row = some d) :
    resolveDate hp row false = ⟨none, false⟩
      ∧ resolveDate hp row true = ⟨some d, true⟩ := by
  unfold resolveDate
  rw [highDate_eq_firstValidHigh, mediumDate_eq_firstValidMedium, hhigh, hmed]
  exact ⟨rfl, rfl⟩

/-- Concrete instance of C2 at a record whose only timestamp field is the
medium-confidence CreationDate. -/
theorem c2_medium_confidence_recovery_witness :
    resolveDate nodeDateParse
      { SourceFile := "a.jpg", CreationDate := some "2024:01:02 03:04:05" } false
      = ⟨none, false⟩
    ∧ resolveDate nodeDateParse
      { SourceFile := "a.jpg", CreationDate := some "2024:01:02 03:04:05" } true
      = ⟨some ⟨2024, 0, 2, 3, 4, 5⟩, true⟩ :=
  c2_medium_confidence_recovery nodeDateParse
    { SourceFile := "a.jpg", CreationDate := some "2024:01:02 03:04:05" }
    ⟨2024, 0, 2, 3, 4, 5⟩ (by decide) (by decide)

/-- C8: a present-but-unparsable timestamp field is treated exactly as an
absent one: two records whose fields parse identically resolve identically
(resolution is a total function, so no error is ever raised), and a record
all of whose fields fail to parse resolves to null and not-approximate. -/
theorem c8_unparsable_is_absent (hp : HostParse) (recoverDate : Bool)
    (row row' : ExifRow) (h : FieldwiseParseEq hp row row') :
    resolveDate hp row recoverDate = resolveDate hp row' recoverDate
      ∧ (AllUnparsable hp row → resolveDate hp row recoverDate = ⟨none, false⟩) := by
  obtain ⟨e1, e2, e3, e4, e5, e6, e7, e8, e9, e10, e11, e12⟩ := h
  constructor
  · unfold resolveDate highDate mediumDate
    rw [e1, e2, e3, e4, e5, e6, e7, e8, e9, e10, e11, e12]
  · intro hall
    have h1 := hall row.DateTimeOriginal (by simp [highFields, mediumFields])
    have h2 := hall row.SubSecDateTimeOriginal (by simp [highFields, mediumFields])
    have h3 := hall row.CreateDate (by simp [highFields, mediumFields])
    have h4 := hall row.SubSecCreateDate (by simp [highFields, mediumFields])
    have h5 := hall row.MediaCreateDate (by simp [highFields, mediumFields])
    have h6 := hall row.DateTimeCreated (by simp [highFields, mediumFields])
    have h7 := hall row.TrackCreateDate (by simp [highFields, mediumFields])
    have h8 := hall row.CreationDate (by simp [highFields, mediumFields])
    have h9 := hall row.MetadataDate (by simp [highFields, mediumFields])
    have h10 := hall row.ModifyDate (by simp [highFields, mediumFields])
    have h11 := hall row.MediaModifyDate (by simp [highFields, mediumFields])
    have h12 := hall row.TrackModifyDate (by simp [highFields, mediumFields])
    unfold resolveDate highDate mediumDate
    rw [h1, h2, h3, h4, h5, h6, h7, h8, h9, h10, h11, h12]
    cases recoverDate <;> rfl

/-- Concrete instance of C8: a record whose every timestamp field holds a
present-but-unparsable string resolves exactly like the all-absent record,
and to null with approx false. -/
theorem c8_unparsable_is_absent_witness :
    resolveDate nodeDateParse
      { SourceFile := "a.jpg", DateTimeOriginal := some "not a date",
        SubSecDateTimeOriginal := some "not a date", CreateDate := some "not a date",
        SubSecCreateDate := some "not a date", MediaCreateDate := some "not a date",
        DateTimeCreated := some "not a date", MetadataDate := some "not a date",
        TrackCreateDate := some "not a date", CreationDate := some "not a date",
        ModifyDate := some "not a date", MediaModifyDate := some "not a date",
        TrackModifyDate := some "not a date" } true
      = resolveDate nodeDateParse { SourceFile := "a.jpg" } true
    ∧ (AllUnparsable nodeDateParse
        { SourceFile := "a.jpg", DateTimeOriginal := some "not a date",
          SubSecDateTimeOriginal := some "not a date", CreateDate := some "not a date",
          SubSecCreateDate := some "not a date", MediaCreateDate := some "not a date",
          DateTimeCreated := some "not a date", MetadataDate := some "not a date",
          TrackCreateDate := some "not a date", CreationDate := some "not a date",
          ModifyDate := some "not a date", MediaModifyDate := some "not a date",
          TrackModifyDate := some "not a date" } →
      resolveDate nodeDateParse
        { SourceFile := "a.jpg", DateTimeOriginal := some "not a date",
          SubSecDateTimeOriginal := some "not a date", CreateDate := some "not a date",
          SubSecCreateDate := some "not a date", MediaCreateDate := some "not a date",
          DateTimeCreated := some "not a date", MetadataDate := some "not a date",
          TrackCreateDate := some "not a date", CreationDate := some "not a date",
          ModifyDate := some "not a date", MediaModifyDate := some "not a date",
          TrackModifyDate := some "not a date" } true
        = ⟨none, false⟩) :=
  c8_unparsable_is_absent nodeDateParse true
    { SourceFile := "a.jpg", DateTimeOriginal := some "not a date",
      SubSecDateTimeOriginal := some "not a date", CreateDate := some "not a date",
      SubSecCreateDate := some "not a date", MediaCreateDate := some "not a date",
      DateTimeCreated := some "not a date", MetadataDate := some "not a date",
      TrackCreateDate := some "not a date", CreationDate := some "not a date",
      ModifyDate := some "not a date", MediaModifyDate := some "not a date",
      TrackModifyDate := some "not a date" }
    { SourceFile := "a.jpg" } (by decide)

/-- C10: date-string validation only rewrites a leading colon-separated
date prefix and then delegates to the host parser, so an ISO-form string
that is not in the EXIF lexical form at all is passed through the
separator fix unchanged and accepted: parseExifDate returns a non-null
date for it rather than treating the value as absent. -/
theorem c10_host_parser_leniency :
    fixExifSeparators "2024-01-02T03:04:05" = "2024-01-02T03:04:05"
      ∧ isExifLexicalForm "2024-01-02T03:04:05" = false
      ∧ parseExifDate nodeDateParse (some "2024-01-02T03:04:05")
          = some ⟨2024, 0, 2, 3, 4, 5⟩ := by
  refine ⟨by decide, by decide, by decide⟩

theorem padStart2_toString_eq_twoDigit (n : Nat) (h : n < 100) :
    padStart2 (toString n) = twoDigit n := by
  revert h
  revert n
  decide

/-- C4: the planned target path of every FinalRecord is exactly the layout
the specification states: the no-photo-taken-date bucket with the identity
hash alone when the date is null, and otherwise the zero-padded
year/month/day directories and the dotted timestamp base name with the
identity hash and an approx suffix exactly when approx is set, the
extension appended in both cases. -/
theorem c4_target_path_layout (root : String) (fr : FinalRecord)
    (hb : componentsBounded fr.date) :
    plannedTargetPath root fr = specTargetPath root fr := by
  cases hdate : fr.date with
  | none =>
    simp only [plannedTargetPath, specTargetPath, hdate, joinPath, String.append_assoc]
  | some d =>
    rw [hdate] at hb
    obtain ⟨h1, h2, h3, h4, h5⟩ := hb
    simp only [plannedTargetPath, specTargetPath, hdate, formatDateDir, formatBaseName,
      getDateParts, joinPath]
    rw [padStart2_toString_eq_twoDigit _ h1, padStart2_toString_eq_twoDigit _ h2,
      padStart2_toString_eq_twoDigit _ h3, padStart2_toString_eq_twoDigit _ h4,
      padStart2_toString_eq_twoDigit _ h5]
    simp [String.append_assoc]

/-- Concrete instance of C4 at a dated, approximate record and at an
undated record. -/
theorem c4_target_path_layout_witness :
    plannedTargetPath "target" ⟨"s/b.mov", ".mov", some ⟨2024, 0, 2, 3, 4, 5⟩, true, "hb"⟩
      = specTargetPath "target" ⟨"s/b.mov", ".mov", some ⟨2024, 0, 2, 3, 4, 5⟩, true, "hb"⟩
    ∧ plannedTargetPath "target" ⟨"s/a.jpg", ".jpg", none, false, "ha"⟩
      = specTargetPath "target" ⟨"s/a.jpg", ".jpg", none, false, "ha"⟩ :=
  ⟨c4_target_path_layout "target" ⟨"s/b.mov", ".mov", some ⟨2024, 0, 2, 3, 4, 5⟩, true, "hb"⟩
      (by decide),
   c4_target_path_layout "target" ⟨"s/a.jpg", ".jpg", none, false, "ha"⟩ (by decide)⟩

/-- C5: when a file already exists at the computed target path the
placement decision is SkipExisting; the computed target path does not
depend on the filesystem oracle at all, so a second planning run against a
tree holding the first run's output yields SkipExisting at the identical
path; and the decision depends on nothing but existence at that one path,
so no content is read or compared. -/
theorem c5_skip_existing_idempotence (root : String) (fr : FinalRecord)
    (ex1 ex2 : String → Bool) (h : ex2 (plannedTargetPath root fr) = true) :
    (plan root ex2 fr).action = PlaceAction.SkipExisting
      ∧ (plan root ex1 fr).targetPath = (plan root ex2 fr).targetPath
      ∧ (∀ g1 g2 : String → Bool,
          g1 (plannedTargetPath root fr) = g2 (plannedTargetPath root fr) →
          plan root g1 fr = plan root g2 fr) := by
  refine ⟨?_, ?_, ?_⟩
  · simp [plan, h]
  · unfold plan
    rw [h]
    split <;> rfl
  · intro g1 g2 hg
    unfold plan
    rw [hg]

/-- Concrete instance of C5: a second run whose oracle reports the first
run's output as already present skips at the identical path. -/
theorem c5_skip_existing_idempotence_witness :
    (plan "t" (fun _ => true) ⟨"s/a.jpg", ".jpg", none, false, "ha"⟩).action
        = PlaceAction.SkipExisting
      ∧ (plan "t" (fun _ => false) ⟨"s/a.jpg", ".jpg", none, false, "ha"⟩).targetPath
          = (plan "t" (fun _ => true) ⟨"s/a.jpg", ".jpg", none, false, "ha"⟩).targetPath
      ∧ (∀ g1 g2 : String → Bool,
          g1 (plannedTargetPath "t" ⟨"s/a.jpg", ".jpg", none, false, "ha"⟩)
            = g2 (plannedTargetPath "t" ⟨"s/a.jpg", ".jpg", none, false, "ha"⟩) →
          plan "t" g1 ⟨"s/a.jpg", ".jpg", none, false, "ha"⟩
            = plan "t" g2 ⟨"s/a.jpg", ".jpg", none, false, "ha"⟩) :=
  c5_skip_existing_idempotence "t" ⟨"s/a.jpg", ".jpg", none, false, "ha"⟩
    (fun _ => false) (fun _ => true) rfl

theorem plannedTargetPath_eq_stem_append (targetRoot : String) (fr : FinalRecord) :
    plannedTargetPath targetRoot fr = plannedStem targetRoot fr ++ fr.ext := by
  cases hdate : fr.date <;>
    simp [plannedTargetPath, plannedStem, hdate, joinPath, String.append_assoc]

theorem resolveAll_ext (hashToken hashFile : String → String) (idx : PairIndex) :
    ∀ (records : List MediaRecord) (st : ResolveState),
    List.Forall₂ (fun (r : MediaRecord) (fr : FinalRecord) => fr.ext = extname r.sourcePath)
      records (resolveAll hashToken hashFile idx st records).1 := by
  intro records
  induction records with
  | nil => intro st; exact List.Forall₂.nil
  | cons r rs ih =>
    intro st
    exact List.Forall₂.cons rfl (ih _)

/-- C9: every final record carries the extension of its source path with
character case preserved exactly as encountered (extname preserves case, as
the exhibited upper-case instance shows), the planner appends exactly that
extension to the planned stem, while photo and media classification looks
only at the lower-cased extension and is therefore case-insensitive. -/
theorem c9_extension_case_preserved (hashToken hashFile : String → String)
    (records : List MediaRecord) (targetRoot : String) :
    List.Forall₂ (fun (r : MediaRecord) (fr : FinalRecord) =>
        fr.ext = extname r.sourcePath
          ∧ plannedTargetPath targetRoot fr = plannedStem targetRoot fr ++ fr.ext)
      records (runEngine hashToken hashFile records).1
    ∧ extname "photos/a.JPG" = ".JPG"
    ∧ (∀ p q : String, strToLower (extname p) = strToLower (extname q) →
        classifyPhoto p = classifyPhoto q ∧ isMediaFile p = isMediaFile q) := by
  refine ⟨?_, by decide, ?_⟩
  · have h := resolveAll_ext hashToken hashFile (buildIndex hashToken records) records
      initResolveState
    exact h.imp (fun r fr hext => ⟨hext, plannedTargetPath_eq_stem_append _ _⟩)
  · intro p q hpq
    constructor
    · unfold classifyPhoto
      rw [hpq]
    · unfold isMediaFile
      rw [hpq]

/-- Concrete instance of C9: a batch holding one upper-case-extension photo
record, planned against an empty target tree. -/
theorem c9_extension_case_preserved_witness :
    List.Forall₂ (fun (r : MediaRecord) (fr : FinalRecord) =>
        fr.ext = extname r.sourcePath
          ∧ plannedTargetPath "t" fr = plannedStem "t" fr ++ fr.ext)
      [⟨"photos/a.JPG", none, none, false⟩]
      (runEngine (fun s => s) (fun s => s) [⟨"photos/a.JPG", none, none, false⟩]).1
    ∧ extname "photos/a.JPG" = ".JPG"
    ∧ (∀ p q : String, strToLower (extname p) = strToLower (extname q) →
        classifyPhoto p = classifyPhoto q ∧ isMediaFile p = isMediaFile q) :=
  c9_extension_case_preserved (fun s => s) (fun s => s)
    [⟨"photos/a.JPG", none, none, false⟩] "t"

theorem resolveAll_sourcePath (hashToken hashFile : String → String) (idx : PairIndex) :
    ∀ (records : List MediaRecord) (st : ResolveState),
    ((resolveAll hashToken hashFile idx st records).1).map (fun f => f.sourcePath)
      = records.map (fun r => r.sourcePath) := by
  intro records
  induction records with
  | nil => intro st; rfl
  | cons r rs ih =>
    intro st
    simp [resolveAll, resolveOne, ih]

/-- C7: the no-date report lists exactly the source paths of the final
records with no resolvable date, in original input order (the finalised
batch lines up one-to-one with the input batch); the serialized artifact
is one path per line, newline-terminated; and no artifact at all is
produced exactly when no record lacks a date. -/
theorem c7_no_date_report (hashToken hashFile : String → String)
    (records : List MediaRecord) :
    ((runEngine hashToken hashFile records).1).map (fun f => f.sourcePath)
        = records.map (fun r => r.sourcePath)
      ∧ noDateList (runEngine hashToken hashFile records).1
          = (((runEngine hashToken hashFile records).1).filter
              (fun f => f.date = none)).map (fun f => f.sourcePath)
      ∧ (noDateReportArtifact (runEngine hashToken hashFile records).1 = none
          ↔ noDateList (runEngine hashToken hashFile records).1 = [])
      ∧ (∀ s, noDateReportArtifact (runEngine hashToken hashFile records).1 = some s →
          s = String.join
            ((noDateList (runEngine hashToken hashFile records).1).map (fun p => p ++ "\n"))) := by
  refine ⟨?_, rfl, ?_, ?_⟩
  · exact resolveAll_sourcePath hashToken hashFile _ records initResolveState
  · unfold noDateReportArtifact
    rcases hl : noDateList (runEngine hashToken hashFile records).1 with _ | ⟨p, ps⟩ <;>
      simp [hl]
  · intro s hs
    unfold noDateReportArtifact at hs
    rcases hl : noDateList (runEngine hashToken hashFile records).1 with _ | ⟨p, ps⟩ <;>
      rw [hl] at hs <;> simp_all

/-- Concrete instance of C7: a two-record batch with one undated record
has a one-line, newline-terminated report holding that record's source
path. -/
theorem c7_no_date_report_witness :
    ((runEngine (fun s => s) (fun s => s)
        [⟨"s/a.jpg", none, none, false⟩,
         ⟨"s/b.mov", none, some ⟨2024, 0, 2, 3, 4, 5⟩, false⟩]).1).map
          (fun f => f.sourcePath)
        = [⟨"s/a.jpg", none, none, false⟩,
           (⟨"s/b.mov", none, some ⟨2024, 0, 2, 3, 4, 5⟩, false⟩ : MediaRecord)].map
            (fun r => r.sourcePath)
      ∧ noDateList (runEngine (fun s => s) (fun s => s)
          [⟨"s/a.jpg", none, none, false⟩,
           ⟨"s/b.mov", none, some ⟨2024, 0, 2, 3, 4, 5⟩, false⟩]).1
          = (((runEngine (fun s => s) (fun s => s)
              [⟨"s/a.jpg", none, none, false⟩,
               ⟨"s/b.mov", none, some ⟨2024, 0, 2, 3, 4, 5⟩, false⟩]).1).filter
                (fun f => f.date = none)).map (fun f => f.sourcePath)
      ∧ (noDateReportArtifact (runEngine (fun s => s) (fun s => s)
            [⟨"s/a.jpg", none, none, false⟩,
             ⟨"s/b.mov", none, some ⟨2024, 0, 2, 3, 4, 5⟩, false⟩]).1 = none
          ↔ noDateList (runEngine (fun s => s) (fun s => s)
              [⟨"s/a.jpg", none, none, false⟩,
               ⟨"s/b.mov", none, some ⟨2024, 0, 2, 3, 4, 5⟩, false⟩]).1 = [])
      ∧ (∀ s, noDateReportArtifact (runEngine (fun s => s) (fun s => s)
            [⟨"s/a.jpg", none, none, false⟩,
             ⟨"s/b.mov", none, some ⟨2024, 0, 2, 3, 4, 5⟩, false⟩]).1 = some s →
          s = String.join
            ((noDateList (runEngine (fun s => s) (fun s => s)
                [⟨"s/a.jpg", none, none, false⟩,
                 ⟨"s/b.mov", none, some ⟨2024, 0, 2, 3, 4, 5⟩, false⟩]).1).map
                  (fun p => p ++ "\n"))) :=
  c7_no_date_report (fun s => s) (fun s => s)
    [⟨"s/a.jpg", none, none, false⟩,
     ⟨"s/b.mov", none, some ⟨2024, 0, 2, 3, 4, 5⟩, false⟩]

/-- Counterexample to C3 as stated: three records share the token CID with
own resolved dates approximate T1, exact T2, and none, in that input
order, but because the exactly-dated record has a video extension the
token index never sees it, so the shared identity resolves to the
approximate T1, not T2: the dateless record adopts T1 with approx true. -/
theorem c3_tie_break_counterexample :
    ((runEngine (fun s => s) (fun s => s)
        [⟨"s/a.heic", some "CID", some ⟨2023, 0, 1, 0, 0, 0⟩, true⟩,
         ⟨"s/b.mov", some "CID", some ⟨2024, 0, 1, 0, 0, 0⟩, false⟩,
         ⟨"s/c.mov", some "CID", none, false⟩]).1).map (fun f => f.date)
      = [some ⟨2023, 0, 1, 0, 0, 0⟩, some ⟨2024, 0, 1, 0, 0, 0⟩,
         some ⟨2023, 0, 1, 0, 0, 0⟩]
    ∧ ((runEngine (fun s => s) (fun s => s)
        [⟨"s/a.heic", some "CID", some ⟨2023, 0, 1, 0, 0, 0⟩, true⟩,
         ⟨"s/b.mov", some "CID", some ⟨2024, 0, 1, 0, 0, 0⟩, false⟩,
         ⟨"s/c.mov", some "CID", none, false⟩]).1).map (fun f => f.approx)
      = [true, false, true]
    ∧ (⟨2023, 0, 1, 0, 0, 0⟩ : JSDate) ≠ ⟨2024, 0, 1, 0, 0, 0⟩ := by
  refine ⟨by decide, by decide, by decide⟩

/-- C3 as amended: when the approximately-dated and the exactly-dated
record of the three token-sharing records are photo-classified, the token
index best candidate resolves to the exact date T2 with approx false, the
dateless record adopts T2 exactly, and all three records receive the same
identity hash, derived from the token. -/
theorem c3_tie_break_amended (hashToken hashFile : String → String)
    (tok pa pb pc : String) (T1 T2 : JSDate)
    (hpa : classifyPhoto pa = true) (hpb : classifyPhoto pb = true) :
    (buildIndex hashToken
        [⟨pa, some tok, some T1, true⟩, ⟨pb, some tok, some T2, false⟩,
         ⟨pc, some tok, none, false⟩]).tokenBest tok = some ⟨T2, false⟩
    ∧ ((runEngine hashToken hashFile
        [⟨pa, some tok, some T1, true⟩, ⟨pb, some tok, some T2, false⟩,
         ⟨pc, some tok, none, false⟩]).1).map (fun f => f.identityHash)
      = [hashToken tok, hashToken tok, hashToken tok]
    ∧ ((runEngine hashToken hashFile
        [⟨pa, some tok, some T1, true⟩, ⟨pb, some tok, some T2, false⟩,
         ⟨pc, some tok, none, false⟩]).1).map (fun f => f.date)
      = [some T1, some T2, some T2]
    ∧ ((runEngine hashToken hashFile
        [⟨pa, some tok, some T1, true⟩, ⟨pb, some tok, some T2, false⟩,
         ⟨pc, some tok, none, false⟩]).1).map (fun f => f.approx)
      = [true, false, false] := by
  refine ⟨?_, ?_, ?_, ?_⟩ <;>
    simp [runEngine, buildIndex, stepIndex, stepTokenHash, stepTokenBest,
      stepNameBest, emptyIndex, resolveAll, resolveOne, adoptDate, hashStep,
      updateFn, replaceCand, replaceNameCand, hpa, hpb, initResolveState,
      List.foldl]

/-- Concrete instance of the amended C3 at photo extensions heic and jpg
and a video extension mov. -/
theorem c3_tie_break_amended_witness :
    (buildIndex (fun s => s)
        [⟨"s/a.heic", some "CID", some ⟨2023, 0, 1, 0, 0, 0⟩, true⟩,
         ⟨"s/b.jpg", some "CID", some ⟨2024, 0, 1, 0, 0, 0⟩, false⟩,
         ⟨"s/c.mov", some "CID", none, false⟩]).tokenBest "CID"
      = some ⟨⟨2024, 0, 1, 0, 0, 0⟩, false⟩
    ∧ ((runEngine (fun s => s) (fun s => s)
        [⟨"s/a.heic", some "CID", some ⟨2023, 0, 1, 0, 0, 0⟩, true⟩,
         ⟨"s/b.jpg", some "CID", some ⟨2024, 0, 1, 0, 0, 0⟩, false⟩,
         ⟨"s/c.mov", some "CID", none, false⟩]).1).map (fun f => f.identityHash)
      = ["CID", "CID", "CID"]
    ∧ ((runEngine (fun s => s) (fun s => s)
        [⟨"s/a.heic", some "CID", some ⟨2023, 0, 1, 0, 0, 0⟩, true⟩,
         ⟨"s/b.jpg", some "CID", some ⟨2024, 0, 1, 0, 0, 0⟩, false⟩,
         ⟨"s/c.mov", some "CID", none, false⟩]).1).map (fun f => f.date)
      = [some ⟨2023, 0, 1, 0, 0, 0⟩, some ⟨2024, 0, 1, 0, 0, 0⟩,
         some ⟨2024, 0, 1, 0, 0, 0⟩]
    ∧ ((runEngine (fun s => s) (fun s => s)
        [⟨"s/a.heic", some "CID", some ⟨2023, 0, 1, 0, 0, 0⟩, true⟩,
         ⟨"s/b.jpg", some "CID", some ⟨2024, 0, 1, 0, 0, 0⟩, false⟩,
         ⟨"s/c.mov", some "CID", none, false⟩]).1).map (fun f => f.approx)
      = [true, false, false] :=
  c3_tie_break_amended (fun s => s) (fun s => s) "CID" "s/a.heic" "s/b.jpg" "s/c.mov"
    ⟨2023, 0, 1, 0, 0, 0⟩ ⟨2024, 0, 1, 0, 0, 0⟩ (by decide) (by decide)

theorem stepTokenBest_tokenHash (idx : PairIndex) (r : MediaRecord) :
    (stepTokenBest idx r).tokenHash = idx.tokenHash := by
  unfold stepTokenBest
  rcases r.token with _ | t <;> rcases r.date with _ | d <;>
    simp [apply_ite PairIndex.tokenHash]

theorem stepNameBest_tokenHash (idx : PairIndex) (r : MediaRecord) :
    (stepNameBest idx r).tokenHash = idx.tokenHash := by
  unfold stepNameBest
  rcases r.date with _ | d <;> simp [apply_ite PairIndex.tokenHash]

theorem stepTokenHash_nameBest (hashToken : String → String) (idx : PairIndex)
    (r : MediaRecord) :
    (stepTokenHash hashToken idx r).nameBest = idx.nameBest := by
  unfold stepTokenHash
  rcases r.token with _ | t <;> simp [apply_ite PairIndex.nameBest]

theorem stepTokenBest_nameBest (idx : PairIndex) (r : MediaRecord) :
    (stepTokenBest idx r).nameBest = idx.nameBest := by
  unfold stepTokenBest
  rcases r.token with _ | t <;> rcases r.date with _ | d <;>
    simp [apply_ite PairIndex.nameBest]

theorem stepTokenHash_ok (hashToken : String → String) (idx : PairIndex)
    (r : MediaRecord) (h : TokenHashOK hashToken idx) :
    TokenHashOK hashToken (stepTokenHash hashToken idx r) := by
  intro t' v hv
  rcases htok : r.token with _ | t
  · simp only [stepTokenHash, htok] at hv
    exact h t' v hv
  · simp only [stepTokenHash, htok] at hv
    by_cases hs : (idx.tokenHash t).isSome
    · rw [if_pos hs] at hv
      exact h t' v hv
    · rw [if_neg hs] at hv
      simp only [updateFn] at hv
      by_cases ht : t' = t
      · rw [if_pos ht] at hv
        cases hv
        rw [ht]
      · rw [if_neg ht] at hv
        exact h t' v hv

theorem stepIndex_tokenHash_ok (hashToken : String → String) (idx : PairIndex)
    (r : MediaRecord) (h : TokenHashOK hashToken idx) :
    TokenHashOK hashToken (stepIndex hashToken idx r) := by
  intro t v hv
  rw [stepIndex, stepNameBest_tokenHash, stepTokenBest_tokenHash] at hv
  exact stepTokenHash_ok hashToken idx r h t v hv

theorem replaceNameCand_cases (cur : Option NameCand) (inc : NameCand) :
    replaceNameCand cur inc = inc
      ∨ (∃ c, cur = some c ∧ replaceNameCand cur inc = c) := by
  rcases cur with _ | c
  · left
    rfl
  · by_cases hcond : (!inc.approx) = true ∧ c.approx = true
    · left
      simp [replaceNameCand, hcond]
    · right
      refine ⟨c, rfl, ?_⟩
      simp only [replaceNameCand]
      rw [if_neg hcond]

theorem stepNameBest_ok (idx : PairIndex) (r : MediaRecord) (h : NameBestOK idx) :
    NameBestOK (stepNameBest idx r) := by
  intro k nb hnb
  rcases hd : r.date with _ | d
  · simp only [stepNameBest, hd] at hnb
    exact h k nb hnb
  · simp only [stepNameBest, hd] at hnb
    by_cases hphoto : classifyPhoto r.sourcePath = true
    · rw [if_pos hphoto] at hnb
      simp only [updateFn] at hnb
      by_cases hk : k = nameKey r.sourcePath
      · rw [if_pos hk] at hnb
        have hval := Option.some.inj hnb
        rcases replaceNameCand_cases (idx.nameBest (nameKey r.sourcePath))
            ⟨d, r.approx, r.sourcePath⟩ with hrep | ⟨c, hcur, hrep⟩
        · rw [hrep] at hval
          rw [← hval]
          exact ⟨hk.symm, hphoto⟩
        · rw [hrep] at hval
          rw [← hval]
          have hold := h _ c hcur
          exact ⟨hold.1.trans hk.symm, hold.2⟩
      · rw [if_neg hk] at hnb
        exact h k nb hnb
    · rw [if_neg hphoto] at hnb
      exact h k nb hnb

theorem stepIndex_nameBest_ok (hashToken : String → String) (idx : PairIndex)
    (r : MediaRecord) (h : NameBestOK idx) :
    NameBestOK (stepIndex hashToken idx r) := by
  apply stepNameBest_ok
  intro k nb hnb
  rw [stepTokenBest_nameBest, stepTokenHash_nameBest] at hnb
  exact h k nb hnb

theorem buildIndex_tokenHash_ok (hashToken : String → String)
    (records : List MediaRecord) :
    TokenHashOK hashToken (buildIndex hashToken records) := by
  unfold buildIndex
  have h0 : TokenHashOK hashToken emptyIndex := by
    intro t v hv
    simp [emptyIndex] at hv
  generalize emptyIndex = idx0 at h0 ⊢
  induction records generalizing idx0 with
  | nil => exact h0
  | cons r rs ih =>
    exact ih _ (stepIndex_tokenHash_ok hashToken idx0 r h0)

theorem buildIndex_nameBest_ok (hashToken : String → String)
    (records : List MediaRecord) :
    NameBestOK (buildIndex hashToken records) := by
  unfold buildIndex
  have h0 : NameBestOK emptyIndex := by
    intro k nb hnb
    simp [emptyIndex] at hnb
  generalize emptyIndex = idx0 at h0 ⊢
  induction records generalizing idx0 with
  | nil => exact h0
  | cons r rs ih =>
    exact ih _ (stepIndex_nameBest_ok hashToken idx0 r h0)

theorem hashStep_token (hashToken hashFile : String → String) (idx : PairIndex)
    (st : ResolveState) (r : MediaRecord) (t : String) (htok : r.token = some t)
    (hOK : TokenHashOK hashToken idx) :
    (hashStep hashToken hashFile idx st r).1 = hashToken t
      ∧ (hashStep hashToken hashFile idx st r).2 = st := by
  simp only [hashStep, htok]
  rcases hc : idx.tokenHash t with _ | v
  · simp [hc]
  · simp [hc, hOK t v hc]

theorem resolveAll_token_hash (hashToken hashFile : String → String)
    (idx : PairIndex) (hOK : TokenHashOK hashToken idx) :
    ∀ (records : List MediaRecord) (st : ResolveState),
    List.Forall₂ (fun (r : MediaRecord) (fr : FinalRecord) =>
        ∀ t, r.token = some t → fr.identityHash = hashToken t)
      records (resolveAll hashToken hashFile idx st records).1 := by
  intro records
  induction records with
  | nil =>
    intro st
    exact List.Forall₂.nil
  | cons r rs ih =>
    intro st
    refine List.Forall₂.cons ?_ (ih _)
    intro t htok
    show (hashStep hashToken hashFile idx st r).1 = hashToken t
    exact (hashStep_token hashToken hashFile idx st r t htok hOK).1

theorem resolveAll_log_nodup (hashToken hashFile : String → String)
    (idx : PairIndex) (hnb : NameBestOK idx) :
    ∀ (rem : List MediaRecord) (st : ResolveState),
    (rem.map (fun r => r.sourcePath)).Nodup → LogOK idx st rem →
    ((resolveAll hashToken hashFile idx st rem).2).hashedPaths.Nodup := by
  intro rem
  induction rem with
  | nil =>
    intro st hmap hlog
    exact hlog.1
  | cons r rs ih =>
    intro st hmap hlog
    obtain ⟨hnd, hphoto, hfall⟩ := hlog
    have hmap' := (List.nodup_cons.mp hmap).2
    have hrpath := (List.nodup_cons.mp hmap).1
    show ((resolveAll hashToken hashFile idx
        ((resolveOne hashToken hashFile idx st r).2) rs).2).hashedPaths.Nodup
    apply ih _ hmap'
    show LogOK idx (hashStep hashToken hashFile idx st r).2 rs
    rcases htok : r.token with _ | t
    · simp only [hashStep, htok]
      rcases hnbk : idx.nameBest (nameKey r.sourcePath) with _ | nb
      · simp only [hnbk]
        refine ⟨List.nodup_cons.mpr ⟨hfall r (List.mem_cons_self r rs) hnbk, hnd⟩, ?_, ?_⟩
        · intro k' nb' h1 h2
          simp only [List.mem_cons]
          rintro (heq | hmem)
          · have hk' := (hnb k' nb' h1).1
            rw [heq] at hk'
            rw [hk'] at hnbk
            rw [h1] at hnbk
            cases hnbk
          · exact hphoto k' nb' h1 h2 hmem
        · intro r' hr' h1
          simp only [List.mem_cons]
          rintro (heq | hmem)
          · apply hrpath
            show r.sourcePath ∈ List.map (fun x => x.sourcePath) rs
            rw [← heq]
            exact List.mem_map_of_mem (fun x => x.sourcePath) hr'
          · exact hfall r' (List.mem_cons_of_mem r hr') h1 hmem
      · simp only [hnbk]
        rcases hg : st.groupHash (nameKey r.sourcePath) with _ | hcache
        · simp only [hg]
          refine ⟨List.nodup_cons.mpr ⟨hphoto _ nb hnbk hg, hnd⟩, ?_, ?_⟩
          · intro k' nb' h1 h2
            simp only [updateFn] at h2
            by_cases hk : k' = nameKey r.sourcePath
            · rw [if_pos hk] at h2
              cases h2
            · rw [if_neg hk] at h2
              simp only [List.mem_cons]
              rintro (heq | hmem)
              · apply hk
                rw [← (hnb k' nb' h1).1, heq, (hnb _ nb hnbk).1]
              · exact hphoto k' nb' h1 h2 hmem
          · intro r' hr' h1
            simp only [List.mem_cons]
            rintro (heq | hmem)
            · have hkeq := (hnb _ nb hnbk).1
              rw [← heq] at hkeq
              rw [hkeq] at h1
              rw [hnbk] at h1
              cases h1
            · exact hfall r' (List.mem_cons_of_mem r hr') h1 hmem
        · simp only [hg]
          exact ⟨hnd, hphoto, fun r' hr' => hfall r' (List.mem_cons_of_mem r hr')⟩
    · simp only [hashStep, htok]
      exact ⟨hnd, hphoto, fun r' hr' => hfall r' (List.mem_cons_of_mem r hr')⟩

theorem resolveAll_log_mem (hashToken hashFile : String → String) (idx : PairIndex) :
    ∀ (rem : List MediaRecord) (st : ResolveState) (p : String),
    p ∈ ((resolveAll hashToken hashFile idx st rem).2).hashedPaths →
    p ∈ st.hashedPaths
      ∨ (∃ k nb, idx.nameBest k = some nb ∧ nb.photoPath = p)
      ∨ (∃ r, r ∈ rem ∧ r.token = none ∧ r.sourcePath = p) := by
  intro rem
  induction rem with
  | nil =>
    intro st p hp
    exact Or.inl hp
  | cons r rs ih =>
    intro st p hp
    have hp' : p ∈ ((resolveAll hashToken hashFile idx
        ((hashStep hashToken hashFile idx st r).2) rs).2).hashedPaths := hp
    rcases ih _ p hp' with hmem | hgroup | ⟨r', hr', hrt, hrp⟩
    · rcases htok : r.token with _ | t
      · rcases hnbk : idx.nameBest (nameKey r.sourcePath) with _ | nb
        · simp only [hashStep, htok, hnbk, List.mem_cons] at hmem
          rcases hmem with heq | hmem
          · exact Or.inr (Or.inr ⟨r, List.mem_cons_self r rs, htok, heq.symm⟩)
          · exact Or.inl hmem
        · rcases hg : st.groupHash (nameKey r.sourcePath) with _ | hcache
          · simp only [hashStep, htok, hnbk, hg, List.mem_cons] at hmem
            rcases hmem with heq | hmem
            · exact Or.inr (Or.inl ⟨nameKey r.sourcePath, nb, hnbk, heq.symm⟩)
            · exact Or.inl hmem
          · simp only [hashStep, htok, hnbk, hg] at hmem
            exact Or.inl hmem
      · simp only [hashStep, htok] at hmem
        exact Or.inl hmem
    · exact Or.inr (Or.inl hgroup)
    · exact Or.inr (Or.inr ⟨r', List.mem_cons_of_mem r hr', hrt, hrp⟩)

/-- C6: over a batch of records with pairwise distinct source paths, every
record carrying a grouping token receives as identity hash the hash of the
token text alone (deterministic, for every hashToken function, with no
content-hash recorded for it); the content of any given path is hashed at
most once in the whole run; and a non-photo record carrying a token, such
as a video paired to a photo, never has its own content hashed. -/
theorem c6_token_hash_and_single_hashing (hashToken hashFile : String → String)
    (records : List MediaRecord)
    (hnd : (records.map (fun r => r.sourcePath)).Nodup) :
    List.Forall₂ (fun (r : MediaRecord) (fr : FinalRecord) =>
        ∀ t, r.token = some t → fr.identityHash = hashToken t)
      records (runEngine hashToken hashFile records).1
    ∧ (∀ p, ((runEngine hashToken hashFile records).2).count p ≤ 1)
    ∧ (∀ r t, r ∈ records → r.token = some t → classifyPhoto r.sourcePath = false →
        r.sourcePath ∉ (runEngine hashToken hashFile records).2) := by
  refine ⟨?_, ?_, ?_⟩
  · exact resolveAll_token_hash hashToken hashFile _
      (buildIndex_tokenHash_ok hashToken records) records initResolveState
  · intro p
    apply List.nodup_iff_count_le_one.mp
    apply resolveAll_log_nodup hashToken hashFile _
      (buildIndex_nameBest_ok hashToken records) records initResolveState hnd
    refine ⟨List.nodup_nil, ?_, ?_⟩
    · intro k nb _ _
      simp [initResolveState]
    · intro r _ _
      simp [initResolveState]
  · intro r t hr htok hnophoto hmem
    rcases resolveAll_log_mem hashToken hashFile _ records initResolveState
        r.sourcePath hmem with habs | ⟨k, nb, hk, hp⟩ | ⟨r', hr', hrt, hrp⟩
    · simp [initResolveState] at habs
    · have := (buildIndex_nameBest_ok hashToken records k nb hk).2
      rw [hp] at this
      rw [this] at hnophoto
      cases hnophoto
    · have hreq : r' = r := by
        apply List.inj_on_of_nodup_map hnd hr' hr
        exact hrp
      rw [hreq] at hrt
      rw [htok] at hrt
      cases hrt

/-- Concrete instance of C6 at a photo and video sharing one token plus a
tokenless record: the token pair is hashed from the token text, the
tokenless record is content-hashed once, and the video path is never
content-hashed. -/
theorem c6_token_hash_and_single_hashing_witness :
    List.Forall₂ (fun (r : MediaRecord) (fr : FinalRecord) =>
        ∀ t, r.token = some t → fr.identityHash = (fun s => "h+" ++ s) t)
      [⟨"s/p.heic", some "CID", some ⟨2024, 0, 2, 3, 4, 5⟩, false⟩,
       ⟨"s/v.mov", some "CID", none, false⟩,
       ⟨"s/x.jpg", none, none, false⟩]
      (runEngine (fun s => "h+" ++ s) (fun s => "f+" ++ s)
        [⟨"s/p.heic", some "CID", some ⟨2024, 0, 2, 3, 4, 5⟩, false⟩,
         ⟨"s/v.mov", some "CID", none, false⟩,
         ⟨"s/x.jpg", none, none, false⟩]).1
    ∧ (∀ p, ((runEngine (fun s => "h+" ++ s) (fun s => "f+" ++ s)
        [⟨"s/p.heic", some "CID", some ⟨2024, 0, 2, 3, 4, 5⟩, false⟩,
         ⟨"s/v.mov", some "CID", none, false⟩,
         ⟨"s/x.jpg", none, none, false⟩]).2).count p ≤ 1)
    ∧ (∀ r t, r ∈ ([⟨"s/p.heic", some "CID", some ⟨2024, 0, 2, 3, 4, 5⟩, false⟩,
         ⟨"s/v.mov", some "CID", none, false⟩,
         ⟨"s/x.jpg", none, none, false⟩] : List MediaRecord) →
        r.token = some t → classifyPhoto r.sourcePath = false →
        r.sourcePath ∉ (runEngine (fun s => "h+" ++ s) (fun s => "f+" ++ s)
          [⟨"s/p.heic", some "CID", some ⟨2024, 0, 2, 3, 4, 5⟩, false⟩,
           ⟨"s/v.mov", some "CID", none, false⟩,
           ⟨"s/x.jpg", none, none, false⟩]).2) :=
  c6_token_hash_and_single_hashing (fun s => "h+" ++ s) (fun s => "f+" ++ s)
    [⟨"s/p.heic", some "CID", some ⟨2024, 0, 2, 3, 4, 5⟩, false⟩,
     ⟨"s/v.mov", some "CID", none, false⟩,
     ⟨"s/x.jpg", none, none, false⟩] (by decide)
